import Mathlib

/-!
Verification of the `PublicBuffer` abstraction from
`tss-esapi/src/structures/buffers/public.rs`.

The buffer itself and all its conversions are translated directly from the
source.  The collaborators — the structured value `Public`, the nested
`TPMT_PUBLIC` field, and the external TSS marshalling service
(`Tss2_MU_TPM2B_PUBLIC_Marshal` / `Unmarshal`) — are not part of the source
under verification; they are modelled abstractly as a record of operations
(`SpecOps`), with the contracts the specification ascribes to them collected
in a separate proposition (`SpecOps.Lawful`).  Machine integers are modelled
as `Nat` with explicit reductions modulo `2 ^ w` where the source performs a
narrowing cast.
-/

namespace Tss

/-- Error kinds used by the buffer code, mirroring `WrapperErrorKind`:
`WrongParamSize` backs the `SizeError` of the spec, `InvalidParam` the
failed internal numeric conversions. -/
inductive WrapperErrorKind where
  | wrongParamSize
  | invalidParam
deriving DecidableEq, Repr

/-- The crate's `Error`: either a local wrapper error or a TSS return code
(`Error::tss_error`), the latter carrying the non-success status of the
external service. -/
inductive Error where
  | localError (k : WrapperErrorKind)
  | tssError (rc : Nat)
deriving DecidableEq, Repr

/-- Modelled from the spec: `MAX_SIZE` is `size_of::<TPMT_PUBLIC>()`, the
byte size of the fixed (unpacked) layout of the public-area structure.  The
binding type is not under verification; the spec gives the concrete value
412. -/
def MAX_SIZE : Nat := 412

/-- Modelled from the spec: `BUFFER_SIZE` is `size_of::<TPM2B_PUBLIC>()`,
the size-prefixed container (2-byte length prefix plus the fixed layout),
i.e. 414 per the spec's §8 example (`2 + 60 = 62 ... not 412 or 414`). -/
def BUFFER_SIZE : Nat := 414

/-- The fixed-layout container `TPM2B_PUBLIC`: a declared `size` field
(a 16-bit unsigned integer in the bindings, modelled as `Nat`) and the
nested `publicArea` payload of abstract type `N` (the bindings type
`TPMT_PUBLIC` is external to the source under verification). -/
structure TPM2B_PUBLIC (N : Type) where
  size : Nat
  publicArea : N
deriving DecidableEq, Repr

/-- `PublicBuffer`: a newtype over an owned byte sequence
(`pub struct PublicBuffer(Vec<u8>)`).  Bytes are modelled as `Nat`. -/
structure PublicBuffer where
  bytes : List Nat
deriving DecidableEq, Repr

/-- Modelled from the spec: the operations of the external collaborators
that the buffer code calls but whose bodies are not in the source under
verification — the structured value `Public` (its fallible conversion from
the nested `TPMT_PUBLIC` field, its infallible conversion into it, and its
own `marshall` / `unmarshall`), and the external encode/decode service
(`Tss2_MU_TPM2B_PUBLIC_Marshal` taking a container and a scratch region and
reporting a final cursor, `Tss2_MU_TPM2B_PUBLIC_Unmarshal` producing a
container from input bytes); service failures are raw TSS return codes. -/
structure SpecOps (P N : Type) where
  tryFromNested : N → Except Error P
  toNested : P → N
  marshallP : P → Except Error (List Nat)
  unmarshallP : List Nat → Except Error P
  marshalSvc : TPM2B_PUBLIC N → List Nat → Except Nat (Nat × List Nat)
  unmarshalSvc : List Nat → Except Nat (TPM2B_PUBLIC N)

/-- Modelled from the spec: the contracts §2, §4.3, §6 and §8 ascribe to the
collaborators — `Public::marshall` produces a packed encoding bounded by the
unpacked layout size; `Public::unmarshall` inverts `Public::marshall`;
`Public::try_from` inverts the conversion into the nested field; the encode
service writes within the scratch region (final cursor at most its
capacity, region length preserved); decoding an encoded container yields
the container back. -/
structure SpecOps.Lawful {P N : Type} (O : SpecOps P N) : Prop where
  marshallP_le : ∀ p bs, O.marshallP p = .ok bs → bs.length ≤ MAX_SIZE
  marshallP_unmarshallP : ∀ p bs, O.marshallP p = .ok bs → O.unmarshallP bs = .ok p
  tryFromNested_toNested : ∀ p, O.tryFromNested (O.toNested p) = .ok p
  marshalSvc_ok : ∀ c scratch off buf, O.marshalSvc c scratch = .ok (off, buf) →
    off ≤ scratch.length ∧ buf.length = scratch.length
  svc_roundtrip : ∀ c scratch off buf, c.size < 2 ^ 16 →
    O.marshalSvc c scratch = .ok (off, buf) →
    O.unmarshalSvc (buf.take off) = .ok c

/-- `PublicBuffer::ensure_valid_buffer_size`: rejects sizes above
`MAX_SIZE` with `WrongParamSize` (the `container_name` argument only feeds
the log message). -/
def ensure_valid_buffer_size (buffer_size : Nat) (_container_name : String) :
    Except Error Unit :=
  if buffer_size > MAX_SIZE then .error (.localError .wrongParamSize)
  else .ok ()

/-- `impl TryFrom<Vec<u8>> for PublicBuffer`: validate the length, then take
ownership of the bytes. -/
def PublicBuffer.tryFromVec (bytes : List Nat) : Except Error PublicBuffer := do
  let _ ← ensure_valid_buffer_size bytes.length "Vec<u8>"
  .ok ⟨bytes⟩

/-- `impl TryFrom<&[u8]> for PublicBuffer`: validate the length, then copy
the borrowed bytes (`bytes.to_vec()`). -/
def PublicBuffer.tryFromSlice (bytes : List Nat) : Except Error PublicBuffer := do
  let _ ← ensure_valid_buffer_size bytes.length "&[u8]"
  .ok ⟨bytes⟩

/-- `impl TryFrom<TPM2B_PUBLIC> for PublicBuffer`: read the declared size,
validate it against `MAX_SIZE`, then decode the nested `publicArea` into a
`Public` and re-encode it via `Public::marshall`. -/
def PublicBuffer.tryFromTPM2B {P N : Type} (O : SpecOps P N)
    (tss : TPM2B_PUBLIC N) : Except Error PublicBuffer := do
  let size := tss.size
  let _ ← ensure_valid_buffer_size size "buffer"
  let public ← O.tryFromNested tss.publicArea
  let bs ← O.marshallP public
  .ok ⟨bs⟩

/-- `impl TryFrom<PublicBuffer> for TPM2B_PUBLIC`: the declared size is the
buffer length narrowed by the unchecked cast `as u16` (modelled as
`% 2 ^ 16`); the nested field is obtained by unmarshalling the bytes into a
`Public` and converting it into the bindings representation. -/
def TPM2B_PUBLIC.tryFromPublicBuffer {P N : Type} (O : SpecOps P N)
    (native : PublicBuffer) : Except Error (TPM2B_PUBLIC N) := do
  let size := native.bytes.length % 2 ^ 16
  let public ← O.unmarshallP native.bytes
  .ok ⟨size, O.toNested public⟩

/-- `impl TryFrom<PublicBuffer> for Public`: unmarshall the stored bytes. -/
def Public.tryFromPublicBuffer {P N : Type} (O : SpecOps P N)
    (buf : PublicBuffer) : Except Error P :=
  O.unmarshallP buf.bytes

/-- `impl TryFrom<Public> for PublicBuffer`: wrap the bytes produced by
`Public::marshall`, with no size check of its own. -/
def PublicBuffer.tryFromPublic {P N : Type} (O : SpecOps P N) (public : P) :
    Except Error PublicBuffer :=
  (O.marshallP public).map PublicBuffer.mk

/-- `impl Marshall for PublicBuffer`: convert the buffer into a
`TPM2B_PUBLIC`, call the external encode service on a zeroed scratch region
of capacity `BUFFER_SIZE` (the capacity passed through a checked conversion
to the service's `size_t`), surface a non-success status as a TSS error,
then interpret the final cursor through a checked conversion back to a host
length (`InvalidParam` on overflow) and truncate the scratch region to it. -/
def PublicBuffer.marshall {P N : Type} (O : SpecOps P N)
    (self : PublicBuffer) : Except Error (List Nat) := do
  let c ← TPM2B_PUBLIC.tryFromPublicBuffer O self
  if BUFFER_SIZE < 2 ^ 64 then
    match O.marshalSvc c (List.replicate BUFFER_SIZE 0) with
    | .error rc => .error (.tssError rc)
    | .ok (off, buf) =>
      if off < 2 ^ 64 then .ok (buf.take off)
      else .error (.localError .invalidParam)
  else .error (.localError .invalidParam)

/-- `impl UnMarshall for PublicBuffer`: pass the input (its length through a
checked conversion to the service's `size_t`) to the external decode
service, surface a non-success status as a TSS error, then build the buffer
from the populated container via the `TryFrom<TPM2B_PUBLIC>` path. -/
def PublicBuffer.unmarshall {P N : Type} (O : SpecOps P N)
    (marshalled_data : List Nat) : Except Error PublicBuffer := do
  if marshalled_data.length < 2 ^ 64 then
    match O.unmarshalSvc marshalled_data with
    | .error rc => .error (.tssError rc)
    | .ok dest => PublicBuffer.tryFromTPM2B O dest
  else .error (.localError .invalidParam)

/-- A concrete, executable instantiation of the collaborator operations,
used to evaluate the buffer code on closed inputs: the structured value and
the nested field are trivial, `Public::marshall` produces the empty packed
encoding, and the service frames a container as its 2-byte big-endian size
prefix followed by zero padding up to the scratch capacity. -/
def M0 : SpecOps Unit Unit where
  tryFromNested _ := .ok ()
  toNested _ := ()
  marshallP _ := .ok []
  unmarshallP _ := .ok ()
  marshalSvc c scratch :=
    if 2 ≤ scratch.length then
      .ok (2, [c.size / 256 % 256, c.size % 256] ++ List.replicate (scratch.length - 2) 0)
    else .error 1
  unmarshalSvc data :=
    match data with
    | b0 :: b1 :: _ => .ok ⟨b0 * 256 + b1, ()⟩
    | _ => .error 2

/-- A variant of `M0` whose `Public::unmarshall` rejects every non-empty
byte sequence, used to exercise the error-propagation paths on closed
inputs. -/
def M1 : SpecOps Unit Unit :=
  { M0 with unmarshallP := fun bs => if bs = [] then .ok () else .error (.tssError 7) }

theorem M0_lawful : M0.Lawful := by
  constructor
  · intro p bs h
    simp only [M0, Except.ok.injEq] at h
    simp [← h, MAX_SIZE]
  · intro p bs h
    simp [M0]
  · intro p
    simp [M0]
  · intro c scratch off buf h
    simp only [M0] at h
    split at h
    · next hle =>
      simp only [Except.ok.injEq, Prod.mk.injEq] at h
      obtain ⟨h1, h2⟩ := h
      subst h1 h2
      refine ⟨hle, ?_⟩
      simp only [List.length_append, List.length_cons, List.length_nil,
        List.length_replicate]
      omega
    · exact Except.noConfusion h
  · intro c scratch off buf hsize h
    obtain ⟨s, a⟩ := c
    cases a
    have hsize' : s < 2 ^ 16 := hsize
    simp only [M0] at h ⊢
    split at h
    · next hle =>
      simp only [Except.ok.injEq, Prod.mk.injEq] at h
      obtain ⟨h1, h2⟩ := h
      subst h1 h2
      have hs : s / 256 % 256 * 256 + s % 256 = s := by
        have hdiv : s / 256 < 256 := Nat.div_lt_of_lt_mul (by omega)
        rw [Nat.mod_eq_of_lt hdiv]
        omega
      show Except.ok (⟨s / 256 % 256 * 256 + s % 256, ()⟩ : TPM2B_PUBLIC Unit) =
        .ok ⟨s, ()⟩
      rw [hs]
    · exact Except.noConfusion h

/-- Binding a success in the `Except` monad applies the continuation. -/
theorem ok_bind {ε α β : Type} (a : α) (f : α → Except ε β) :
    (Except.ok a >>= f) = f a := rfl

/-- Binding a failure in the `Except` monad propagates the failure. -/
theorem error_bind {ε α β : Type} (e : ε) (f : α → Except ε β) :
    ((Except.error e : Except ε α) >>= f) = .error e := rfl

/-- `Except.bind` on a success applies the continuation. -/
theorem bindE_ok {ε α β : Type} (a : α) (f : α → Except ε β) :
    (Except.ok a : Except ε α).bind f = f a := rfl

/-- `Except.bind` on a failure propagates the failure. -/
theorem bindE_error {ε α β : Type} (e : ε) (f : α → Except ε β) :
    (Except.error e : Except ε α).bind f = .error e := rfl

/-- `Except.map` on a success applies the function. -/
theorem mapE_ok {ε α β : Type} (f : α → β) (a : α) :
    Except.map f (.ok a : Except ε α) = .ok (f a) := rfl

/-- `Except.map` on a failure propagates the failure. -/
theorem mapE_error {ε α β : Type} (f : α → β) (e : ε) :
    Except.map f (.error e : Except ε α) = .error e := rfl

/-- Closed form of the `TryFrom<TPM2B_PUBLIC>` constructor: the size guard
first, then the decode–re-encode chain on the nested payload. -/
theorem tryFromTPM2B_eq {P N : Type} (O : SpecOps P N) (tss : TPM2B_PUBLIC N) :
    PublicBuffer.tryFromTPM2B O tss =
      if MAX_SIZE < tss.size then .error (.localError .wrongParamSize)
      else ((O.tryFromNested tss.publicArea).bind O.marshallP).map PublicBuffer.mk := by
  unfold PublicBuffer.tryFromTPM2B ensure_valid_buffer_size
  simp only [gt_iff_lt]
  split
  · rw [error_bind]
  · rw [ok_bind]
    cases O.tryFromNested tss.publicArea with
    | error e => rw [error_bind, bindE_error, mapE_error]
    | ok p =>
      rw [ok_bind, bindE_ok]
      cases O.marshallP p with
      | error e => rw [error_bind, mapE_error]
      | ok bs => rw [ok_bind, mapE_ok]

/-- Closed form of the `TryFrom<PublicBuffer> for TPM2B_PUBLIC` conversion:
the declared size is the length narrowed by `as u16`, the payload comes from
`Public::unmarshall` with its failure propagated. -/
theorem tryFromPublicBuffer_eq {P N : Type} (O : SpecOps P N)
    (native : PublicBuffer) :
    TPM2B_PUBLIC.tryFromPublicBuffer O native =
      (O.unmarshallP native.bytes).map
        (fun p => ⟨native.bytes.length % 2 ^ 16, O.toNested p⟩) := by
  unfold TPM2B_PUBLIC.tryFromPublicBuffer
  cases O.unmarshallP native.bytes with
  | error e => rw [error_bind, mapE_error]
  | ok p => rw [ok_bind, mapE_ok]

/-- Closed form of `Marshall::marshall`: convert to the container, call the
encode service on the zeroed scratch region, truncate to the final cursor
(`BUFFER_SIZE` itself always passes the capacity conversion check). -/
theorem marshall_eq {P N : Type} (O : SpecOps P N) (self : PublicBuffer) :
    PublicBuffer.marshall O self =
      match TPM2B_PUBLIC.tryFromPublicBuffer O self with
      | .error e => .error e
      | .ok c =>
        match O.marshalSvc c (List.replicate BUFFER_SIZE 0) with
        | .error rc => .error (.tssError rc)
        | .ok (off, buf) =>
          if off < 2 ^ 64 then .ok (buf.take off)
          else .error (.localError .invalidParam) := by
  unfold PublicBuffer.marshall
  cases TPM2B_PUBLIC.tryFromPublicBuffer O self with
  | error e => rw [error_bind]
  | ok c =>
    rw [ok_bind]
    rw [if_pos (by norm_num [BUFFER_SIZE])]

/-- Closed form of `UnMarshall::unmarshall` for inputs whose length passes
the `size_t` conversion check. -/
theorem unmarshall_eq {P N : Type} (O : SpecOps P N) (data : List Nat)
    (h : data.length < 2 ^ 64) :
    PublicBuffer.unmarshall O data =
      match O.unmarshalSvc data with
      | .error rc => .error (.tssError rc)
      | .ok dest => PublicBuffer.tryFromTPM2B O dest := by
  unfold PublicBuffer.unmarshall
  rw [if_pos h]

/-- Inversion for the `TryFrom<TPM2B_PUBLIC>` constructor: a successful
result keeps the container within the bound and stores re-marshalled
bytes. -/
theorem tryFromTPM2B_ok_length {P N : Type} {O : SpecOps P N} (L : O.Lawful)
    (tss : TPM2B_PUBLIC N) (buf : PublicBuffer)
    (h : PublicBuffer.tryFromTPM2B O tss = .ok buf) :
    buf.bytes.length ≤ MAX_SIZE := by
  rw [tryFromTPM2B_eq] at h
  split at h
  · exact Except.noConfusion h
  · cases htf : O.tryFromNested tss.publicArea with
    | error e =>
      rw [htf, bindE_error, mapE_error] at h
      exact Except.noConfusion h
    | ok p =>
      rw [htf, bindE_ok] at h
      cases hm : O.marshallP p with
      | error e =>
        rw [hm, mapE_error] at h
        exact Except.noConfusion h
      | ok bs =>
        rw [hm, mapE_ok] at h
        injection h with h'
        subst h'
        exact L.marshallP_le p bs hm

/-- C3: `TryFrom<Vec<u8>>` and `TryFrom<&[u8]>` succeed (keeping the bytes)
exactly when the input length is at most `MAX_SIZE`, fail with the
`WrongParamSize` size error otherwise, and `MAX_SIZE` is concretely 412. -/
theorem C3_from_bytes_size_boundary :
    (∀ bs : List Nat, bs.length ≤ MAX_SIZE →
      PublicBuffer.tryFromVec bs = .ok ⟨bs⟩ ∧
      PublicBuffer.tryFromSlice bs = .ok ⟨bs⟩) ∧
    (∀ bs : List Nat, MAX_SIZE < bs.length →
      PublicBuffer.tryFromVec bs = .error (.localError .wrongParamSize) ∧
      PublicBuffer.tryFromSlice bs = .error (.localError .wrongParamSize)) ∧
    MAX_SIZE = 412 := by
  refine ⟨?_, ?_, rfl⟩
  · intro bs h
    constructor
    · unfold PublicBuffer.tryFromVec ensure_valid_buffer_size
      rw [if_neg (by omega), ok_bind]
    · unfold PublicBuffer.tryFromSlice ensure_valid_buffer_size
      rw [if_neg (by omega), ok_bind]
  · intro bs h
    constructor
    · unfold PublicBuffer.tryFromVec ensure_valid_buffer_size
      rw [if_pos (by omega), error_bind]
    · unfold PublicBuffer.tryFromSlice ensure_valid_buffer_size
      rw [if_pos (by omega), error_bind]

/-- Witness for C3 at the concrete boundary: a 412-byte input succeeds on
both byte constructors, a 413-byte input fails with the size error. -/
theorem C3_from_bytes_size_boundary_witness :
    PublicBuffer.tryFromVec (List.replicate 412 0) = .ok ⟨List.replicate 412 0⟩ ∧
    PublicBuffer.tryFromSlice (List.replicate 412 0) = .ok ⟨List.replicate 412 0⟩ ∧
    PublicBuffer.tryFromVec (List.replicate 413 0) = .error (.localError .wrongParamSize) ∧
    PublicBuffer.tryFromSlice (List.replicate 413 0) = .error (.localError .wrongParamSize) :=
  ⟨(C3_from_bytes_size_boundary.1 _ (by rw [List.length_replicate]; decide)).1,
   (C3_from_bytes_size_boundary.1 _ (by rw [List.length_replicate]; decide)).2,
   (C3_from_bytes_size_boundary.2.1 _ (by rw [List.length_replicate]; decide)).1,
   (C3_from_bytes_size_boundary.2.1 _ (by rw [List.length_replicate]; decide)).2⟩

/-- C1: every public constructor of `PublicBuffer` — from an owned byte
sequence, a borrowed slice, a `TPM2B_PUBLIC` container, a `Public`
structured value (which has no explicit size check), or wire
unmarshalling — only produces buffers with at most `MAX_SIZE` bytes. -/
theorem C1_constructor_invariant {P N : Type} (O : SpecOps P N) (L : O.Lawful) :
    (∀ bs buf, PublicBuffer.tryFromVec bs = .ok buf → buf.bytes.length ≤ MAX_SIZE) ∧
    (∀ bs buf, PublicBuffer.tryFromSlice bs = .ok buf → buf.bytes.length ≤ MAX_SIZE) ∧
    (∀ tss buf, PublicBuffer.tryFromTPM2B O tss = .ok buf → buf.bytes.length ≤ MAX_SIZE) ∧
    (∀ p buf, PublicBuffer.tryFromPublic O p = .ok buf → buf.bytes.length ≤ MAX_SIZE) ∧
    (∀ data buf, PublicBuffer.unmarshall O data = .ok buf → buf.bytes.length ≤ MAX_SIZE) := by
  refine ⟨?_, ?_, fun tss buf h => tryFromTPM2B_ok_length L tss buf h, ?_, ?_⟩
  · intro bs buf h
    unfold PublicBuffer.tryFromVec ensure_valid_buffer_size at h
    split at h
    · rw [error_bind] at h
      exact Except.noConfusion h
    · rw [ok_bind] at h
      injection h with h'
      subst h'
      simp only [PublicBuffer.bytes]
      omega
  · intro bs buf h
    unfold PublicBuffer.tryFromSlice ensure_valid_buffer_size at h
    split at h
    · rw [error_bind] at h
      exact Except.noConfusion h
    · rw [ok_bind] at h
      injection h with h'
      subst h'
      simp only [PublicBuffer.bytes]
      omega
  · intro p buf h
    unfold PublicBuffer.tryFromPublic at h
    cases hm : O.marshallP p with
    | error e =>
      rw [hm, mapE_error] at h
      exact Except.noConfusion h
    | ok bs =>
      rw [hm, mapE_ok] at h
      injection h with h'
      subst h'
      exact L.marshallP_le p bs hm
  · intro data buf h
    unfold PublicBuffer.unmarshall at h
    split at h
    · cases hu : O.unmarshalSvc data with
      | error rc =>
        rw [hu] at h
        exact Except.noConfusion h
      | ok dest =>
        rw [hu] at h
        exact tryFromTPM2B_ok_length L dest buf h
    · exact Except.noConfusion h

/-- Witness for C1 at concrete inputs of the owned-bytes and structured
paths under the executable model. -/
theorem C1_constructor_invariant_witness :
    (PublicBuffer.mk [5, 6]).bytes.length ≤ MAX_SIZE ∧
    (PublicBuffer.mk []).bytes.length ≤ MAX_SIZE :=
  ⟨(C1_constructor_invariant M0 M0_lawful).1 [5, 6] ⟨[5, 6]⟩ rfl,
   (C1_constructor_invariant M0 M0_lawful).2.2.2.1 () ⟨[]⟩ rfl⟩

/-- C4: a container whose declared size exceeds `MAX_SIZE` is rejected with
the size error for every collaborator model, in particular ones whose
nested-payload decode would succeed — the rejection precedes any decode. -/
theorem C4_container_size_rejection {P N : Type} (O : SpecOps P N)
    (tss : TPM2B_PUBLIC N) (h : MAX_SIZE < tss.size) :
    PublicBuffer.tryFromTPM2B O tss = .error (.localError .wrongParamSize) := by
  rw [tryFromTPM2B_eq, if_pos h]

/-- Witness for C4: the size-413 container is rejected even though the
model's payload decode succeeds on its nested payload. -/
theorem C4_container_size_rejection_witness :
    PublicBuffer.tryFromTPM2B M0 ⟨413, ()⟩ = .error (.localError .wrongParamSize) ∧
    M0.tryFromNested () = .ok () :=
  ⟨C4_container_size_rejection M0 ⟨413, ()⟩ (by decide), rfl⟩

/-- C5: within the size bound, the `TryFrom<TPM2B_PUBLIC>` constructor is
exactly the normalizing round trip — decode the nested payload into
`Public`, re-encode via `Public::marshall`, store those bytes — with any
failure of either step propagated. -/
theorem C5_normalizing_roundtrip {P N : Type} (O : SpecOps P N)
    (tss : TPM2B_PUBLIC N) (h : tss.size ≤ MAX_SIZE) :
    PublicBuffer.tryFromTPM2B O tss =
      ((O.tryFromNested tss.publicArea).bind O.marshallP).map PublicBuffer.mk := by
  rw [tryFromTPM2B_eq, if_neg (by omega)]

/-- Witness for C5 at a concrete in-bound container. -/
theorem C5_normalizing_roundtrip_witness :
    PublicBuffer.tryFromTPM2B M0 ⟨0, ()⟩ =
      ((M0.tryFromNested ()).bind M0.marshallP).map PublicBuffer.mk :=
  C5_normalizing_roundtrip M0 ⟨0, ()⟩ (by decide)

/-- The `TryFrom<PublicBuffer>` conversion under the executable model, in
closed form: the declared size is the byte length narrowed modulo
`2 ^ 16`. -/
theorem tryFromPublicBuffer_M0 (bs : List Nat) :
    TPM2B_PUBLIC.tryFromPublicBuffer M0 (PublicBuffer.mk bs) =
      .ok ⟨bs.length % 2 ^ 16, ()⟩ := by
  rw [tryFromPublicBuffer_eq]
  rfl

/-- C2 (counterexample): a buffer of `2 ^ 16` bytes — whose length does not
fit the 16-bit size field — is not rejected with `InvalidParam`; the
conversion succeeds and silently truncates the declared size to 0
(`as u16`). -/
theorem C2_counterexample :
    (PublicBuffer.mk (List.replicate (2 ^ 16) 0)).bytes.length = 2 ^ 16 ∧
    TPM2B_PUBLIC.tryFromPublicBuffer M0 (PublicBuffer.mk (List.replicate (2 ^ 16) 0)) =
      .ok ⟨0, ()⟩ := by
  constructor
  · exact List.length_replicate _ _
  · rw [tryFromPublicBuffer_M0, List.length_replicate, Nat.mod_self]

/-- C2 (amended): the conversion to `TPM2B_PUBLIC` sets the declared size
to the buffer length narrowed modulo `2 ^ 16`; for every buffer satisfying
the `MAX_SIZE` invariant this equals the exact byte length. -/
theorem C2_size_field_exact {P N : Type} (O : SpecOps P N)
    (native : PublicBuffer) (c : TPM2B_PUBLIC N)
    (hle : native.bytes.length ≤ MAX_SIZE)
    (h : TPM2B_PUBLIC.tryFromPublicBuffer O native = .ok c) :
    c.size = native.bytes.length := by
  rw [tryFromPublicBuffer_eq] at h
  cases hu : O.unmarshallP native.bytes with
  | error e =>
    rw [hu, mapE_error] at h
    exact Except.noConfusion h
  | ok p =>
    rw [hu, mapE_ok] at h
    injection h with h'
    subst h'
    have hM : MAX_SIZE = 412 := rfl
    exact Nat.mod_eq_of_lt (by omega)

/-- Witness for C2's amended statement at a concrete 3-byte buffer. -/
theorem C2_size_field_exact_witness :
    (⟨3, ()⟩ : TPM2B_PUBLIC Unit).size = (PublicBuffer.mk [9, 9, 9]).bytes.length :=
  C2_size_field_exact M0 ⟨[9, 9, 9]⟩ ⟨3, ()⟩ (by decide) rfl

/-- Forward evaluation of `marshall` when both the container conversion and
the encode service succeed and the cursor fits: the result is the scratch
region truncated at the cursor. -/
theorem marshall_ok_eq {P N : Type} (O : SpecOps P N) (self : PublicBuffer)
    (c : TPM2B_PUBLIC N) (off : Nat) (buf : List Nat)
    (hc : TPM2B_PUBLIC.tryFromPublicBuffer O self = .ok c)
    (hs : O.marshalSvc c (List.replicate BUFFER_SIZE 0) = .ok (off, buf))
    (hoff : off < 2 ^ 64) :
    PublicBuffer.marshall O self = .ok (buf.take off) := by
  unfold PublicBuffer.marshall
  rw [hc, ok_bind, if_pos (show BUFFER_SIZE < 2 ^ 64 by norm_num [BUFFER_SIZE]), hs]
  show (if off < 2 ^ 64 then (Except.ok (buf.take off) : Except Error (List Nat))
    else .error (.localError .invalidParam)) = .ok (buf.take off)
  rw [if_pos hoff]

/-- Forward evaluation of `marshall` when the encode service reports a
non-success status: the status is surfaced as a TSS error. -/
theorem marshall_svc_error_eq {P N : Type} (O : SpecOps P N)
    (self : PublicBuffer) (c : TPM2B_PUBLIC N) (rc : Nat)
    (hc : TPM2B_PUBLIC.tryFromPublicBuffer O self = .ok c)
    (hs : O.marshalSvc c (List.replicate BUFFER_SIZE 0) = .error rc) :
    PublicBuffer.marshall O self = .error (.tssError rc) := by
  unfold PublicBuffer.marshall
  rw [hc, ok_bind, if_pos (show BUFFER_SIZE < 2 ^ 64 by norm_num [BUFFER_SIZE]), hs]

/-- Forward evaluation of the `TryFrom<TPM2B_PUBLIC>` constructor on an
in-bound container whose payload decodes and re-encodes successfully. -/
theorem tryFromTPM2B_ok_of {P N : Type} (O : SpecOps P N)
    (tss : TPM2B_PUBLIC N) (p : P) (bs : List Nat)
    (h1 : tss.size ≤ MAX_SIZE)
    (h2 : O.tryFromNested tss.publicArea = .ok p)
    (h3 : O.marshallP p = .ok bs) :
    PublicBuffer.tryFromTPM2B O tss = .ok ⟨bs⟩ := by
  rw [tryFromTPM2B_eq, if_neg (by omega), h2, bindE_ok, h3, mapE_ok]

/-- C6: whenever `marshall` succeeds, the returned byte sequence is exactly
the scratch region truncated at the service-reported final cursor, its
length equals that cursor value, and in particular it is never the full
scratch capacity when the cursor stopped short of it. -/
theorem C6_exact_length_encoding {P N : Type} (O : SpecOps P N) (L : O.Lawful)
    (B : PublicBuffer) (w : List Nat) (c : TPM2B_PUBLIC N) (off : Nat)
    (buf : List Nat)
    (hc : TPM2B_PUBLIC.tryFromPublicBuffer O B = .ok c)
    (hs : O.marshalSvc c (List.replicate BUFFER_SIZE 0) = .ok (off, buf))
    (h : PublicBuffer.marshall O B = .ok w) :
    w = buf.take off ∧ w.length = off ∧
      (off < BUFFER_SIZE → w.length ≠ BUFFER_SIZE) := by
  obtain ⟨hoffle, hbufeq⟩ := L.marshalSvc_ok c (List.replicate BUFFER_SIZE 0) off buf hs
  rw [List.length_replicate] at hoffle hbufeq
  have hB : BUFFER_SIZE = 414 := rfl
  have hoff : off < 2 ^ 64 := by omega
  rw [marshall_ok_eq O B c off buf hc hs hoff] at h
  injection h with hw
  subst hw
  refine ⟨rfl, ?_, ?_⟩
  · rw [List.length_take]
    omega
  · intro hlt
    rw [List.length_take]
    omega

set_option maxRecDepth 8000 in
/-- Witness for C6 under the executable model: the empty buffer marshals to
the 2 bytes the service reports written, not the 414-byte scratch. -/
theorem C6_exact_length_encoding_witness :
    [0, 0] = (([0, 0] ++ List.replicate 412 0).take 2 : List Nat) ∧
    ([0, 0] : List Nat).length = 2 ∧
    (2 < BUFFER_SIZE → ([0, 0] : List Nat).length ≠ BUFFER_SIZE) :=
  C6_exact_length_encoding M0 M0_lawful ⟨[]⟩ [0, 0] ⟨0, ()⟩ 2
    ([0, 0] ++ List.replicate 412 0) rfl rfl rfl

/-- C7: converting a `Public` value into a `PublicBuffer` and back yields
the original value. -/
theorem C7_structured_roundtrip {P N : Type} (O : SpecOps P N) (L : O.Lawful)
    (p : P) (buf : PublicBuffer)
    (h : PublicBuffer.tryFromPublic O p = .ok buf) :
    Public.tryFromPublicBuffer O buf = .ok p := by
  unfold PublicBuffer.tryFromPublic at h
  cases hm : O.marshallP p with
  | error e =>
    rw [hm, mapE_error] at h
    exact Except.noConfusion h
  | ok bs =>
    rw [hm, mapE_ok] at h
    injection h with h'
    subst h'
    exact L.marshallP_unmarshallP p bs hm

/-- Witness for C7 at the trivial structured value. -/
theorem C7_structured_roundtrip_witness :
    Public.tryFromPublicBuffer M0 ⟨[]⟩ = .ok () :=
  C7_structured_roundtrip M0 M0_lawful () ⟨[]⟩ rfl

/-- C8: for a buffer built from a structured value, unmarshalling the
result of marshalling recovers the buffer (even structurally, hence with
equal byte content). -/
theorem C8_wire_roundtrip {P N : Type} (O : SpecOps P N) (L : O.Lawful)
    (p : P) (B : PublicBuffer) (w : List Nat)
    (hB : PublicBuffer.tryFromPublic O p = .ok B)
    (hm : PublicBuffer.marshall O B = .ok w) :
    PublicBuffer.unmarshall O w = .ok B := by
  have hmp : O.marshallP p = .ok B.bytes := by
    unfold PublicBuffer.tryFromPublic at hB
    cases hm' : O.marshallP p with
    | error e =>
      rw [hm', mapE_error] at hB
      exact Except.noConfusion hB
    | ok bs =>
      rw [hm', mapE_ok] at hB
      injection hB with h'
      rw [← h']
  have hlen : B.bytes.length ≤ MAX_SIZE := L.marshallP_le p B.bytes hmp
  have hun : O.unmarshallP B.bytes = .ok p := L.marshallP_unmarshallP p B.bytes hmp
  have hM : MAX_SIZE = 412 := rfl
  have hlt16 : B.bytes.length < 2 ^ 16 := by omega
  have hc : TPM2B_PUBLIC.tryFromPublicBuffer O B =
      .ok ⟨B.bytes.length, O.toNested p⟩ := by
    rw [tryFromPublicBuffer_eq, hun, mapE_ok, Nat.mod_eq_of_lt hlt16]
  cases hsvc : O.marshalSvc ⟨B.bytes.length, O.toNested p⟩
      (List.replicate BUFFER_SIZE 0) with
  | error rc =>
    rw [marshall_svc_error_eq O B _ rc hc hsvc] at hm
    exact Except.noConfusion hm
  | ok pr =>
    obtain ⟨off, buf⟩ := pr
    obtain ⟨hoffle, hbufeq⟩ :=
      L.marshalSvc_ok _ (List.replicate BUFFER_SIZE 0) off buf hsvc
    rw [List.length_replicate] at hoffle hbufeq
    have hBs : BUFFER_SIZE = 414 := rfl
    have hoff : off < 2 ^ 64 := by omega
    rw [marshall_ok_eq O B _ off buf hc hsvc hoff] at hm
    injection hm with hw
    have hdec : O.unmarshalSvc (buf.take off) =
        .ok ⟨B.bytes.length, O.toNested p⟩ :=
      L.svc_roundtrip _ _ _ _ hlt16 hsvc
    rw [← hw]
    have hwlen : (buf.take off).length < 2 ^ 64 := by
      rw [List.length_take]
      omega
    rw [unmarshall_eq O _ hwlen, hdec]
    show PublicBuffer.tryFromTPM2B O ⟨B.bytes.length, O.toNested p⟩ = .ok B
    rw [tryFromTPM2B_ok_of O _ p B.bytes hlen (L.tryFromNested_toNested p) hmp]

set_option maxRecDepth 8000 in
/-- Witness for C8 under the executable model: the framed encoding of the
empty-payload buffer decodes back to that buffer. -/
theorem C8_wire_roundtrip_witness :
    PublicBuffer.unmarshall M0 [0, 0] = .ok ⟨[]⟩ :=
  C8_wire_roundtrip M0 M0_lawful () ⟨[]⟩ [0, 0] rfl rfl

/-- C9: marshalling a buffer whose bytes `Public::unmarshall` rejects fails
with that propagated error, for every encode service — the conversion
through `TPM2B_PUBLIC` re-decodes the bytes before the service could ever
be invoked. -/
theorem C9_marshall_propagates_decode_error {P N : Type} (O : SpecOps P N)
    (B : PublicBuffer) (e : Error)
    (_hle : B.bytes.length ≤ MAX_SIZE)
    (hu : O.unmarshallP B.bytes = .error e) :
    PublicBuffer.marshall O B = .error e := by
  have hc : TPM2B_PUBLIC.tryFromPublicBuffer O B = .error e := by
    rw [tryFromPublicBuffer_eq, hu, mapE_error]
  unfold PublicBuffer.marshall
  rw [hc, error_bind]

/-- Witness for C9: under the model whose `Public::unmarshall` rejects
non-empty inputs, marshalling a 1-byte buffer surfaces exactly that
error. -/
theorem C9_marshall_propagates_decode_error_witness :
    PublicBuffer.marshall M1 ⟨[1]⟩ = .error (.tssError 7) :=
  C9_marshall_propagates_decode_error M1 ⟨[1]⟩ (.tssError 7) (by decide) rfl

end Tss
